import Mathlib

/-!
Verification development for the MCP protocol engines of this repository.

The repository contains two protocol engines handling JSON-RPC over a
length-prefixed byte stream:

* `McpBaseServer` in `python_mcp/servers/base_server.py` — the framer
  `_read_header_and_content`, the dispatcher `_handle_request`, and the
  message loop `_run_message_loop`;
* `handle_jsonrpc` in `mcp_embedding_server/server.py` — a second engine
  with its own framing loop and dispatch branches.

The definitions below are a shallow embedding of that code:

* JSON values are `JsonV` (numbers are modelled as integers — every message
  the engines construct or that the claims mention uses integral numbers);
* byte streams are `Chunks`, a list of the byte groups that successive
  OS-level reads can deliver; `readRaw n` models a single `read(n)` call on
  the unbuffered `FileIO` object `raw_stdin` (the documented semantics of a
  raw read: at most one chunk, at most `n` bytes, empty only at
  end-of-stream);
* Python `dict.get` over JSON-decoded data identifies an absent key with a
  key mapped to `null`, exactly as `None` behaves in the source;
* handler invocation is `Handler := JsonV → Except String JsonV`, the
  `Except.error` string standing for `str(e)` of a raised exception.
-/

/-- JSON values as decoded by `json.loads`.  Numbers are modelled as
integers; object fields keep insertion order and unique keys, matching
Python dicts. -/
inductive JsonV where
  | null : JsonV
  | bool : Bool → JsonV
  | num : Int → JsonV
  | str : String → JsonV
  | arr : List JsonV → JsonV
  | obj : List (String × JsonV) → JsonV

namespace JsonV

/-- Python truthiness of a JSON-decoded value (`if method:` in the source). -/
def truthy : JsonV → Bool
  | .null => false
  | .bool b => b
  | .num n => n != 0
  | .str s => s != ""
  | .arr xs => !xs.isEmpty
  | .obj kvs => !kvs.isEmpty

/-- `x is None` in the source (`req_id is not None`, `tool_name is None`). -/
def isNull : JsonV → Bool
  | .null => true
  | _ => false

end JsonV

/-- First-match association lookup, the model of Python `dict.get(k)`
returning `None` when the key is absent (keys are unique by construction). -/
def listLookup (kvs : List (String × JsonV)) (k : String) : Option JsonV :=
  match kvs with
  | [] => none
  | (k', v) :: rest => if k' = k then some v else listLookup rest k

/-- `d.get(k)` on JSON-decoded data: an absent key and a key holding JSON
`null` both come back as Python `None`, which we model as `.null`. -/
def pyGet (kvs : List (String × JsonV)) (k : String) : JsonV :=
  (listLookup kvs k).getD .null

/-- `d.get(k, default)`: the default applies only when the key is absent;
a key present with value `null` yields `null`. -/
def pyGetD (kvs : List (String × JsonV)) (k : String) (d : JsonV) : JsonV :=
  (listLookup kvs k).getD d

/-- Python `str.startswith` (used for the `$/` notification check). -/
def pyStartsWith (s pre : String) : Bool := pre.toList.isPrefixOf s.toList

/-- Insert or update a key, keeping the original position on update — the
behaviour of assigning into a Python dict (used for duplicate JSON keys,
where `json.loads` keeps the last value). -/
def updateKV (kvs : List (String × JsonV)) (k : String) (v : JsonV) :
    List (String × JsonV) :=
  match kvs with
  | [] => [(k, v)]
  | (k', v') :: rest =>
      if k' = k then (k', v) :: rest else (k', v') :: updateKV rest k v

mutual

/-- Python `str()` of a JSON-decoded value, as interpolated by the
f-strings building error messages (`f"Tool not found: \x7btool_name\x7d"`).
Only the cases the messages can hit matter to the claims: `None ↦ "None"`,
strings verbatim, integers in decimal. -/
def pyStr : JsonV → String
  | .null => "None"
  | .bool true => "True"
  | .bool false => "False"
  | .num n => toString n
  | .str s => s
  | .arr xs => "[" ++ pyStrList xs ++ "]"
  | .obj kvs => "\x7b" ++ pyStrKVs kvs ++ "\x7d"
termination_by v => (sizeOf v, 1)

/-- `repr()` form used for elements nested inside containers
(strings gain quotes there). -/
def pyStrElem : JsonV → String
  | .str s => "\x27" ++ s ++ "\x27"
  | v => pyStr v
termination_by v => (sizeOf v, 2)

/-- Comma-joined `repr()` forms of list elements. -/
def pyStrList : List JsonV → String
  | [] => ""
  | [x] => pyStrElem x
  | x :: y :: xs => pyStrElem x ++ ", " ++ pyStrList (y :: xs)
termination_by xs => (sizeOf xs, 0)

/-- Comma-joined `repr()` forms of dict entries. -/
def pyStrKVs : List (String × JsonV) → String
  | [] => ""
  | [(k, v)] => "\x27" ++ k ++ "\x27: " ++ pyStrElem v
  | (k, v) :: e :: kvs =>
      "\x27" ++ k ++ "\x27: " ++ pyStrElem v ++ ", " ++ pyStrKVs (e :: kvs)
termination_by kvs => (sizeOf kvs, 0)

end

/-! ### Byte streams

The inbound stream is modelled as the list of byte groups that successive
OS-level reads can deliver (`Chunks`).  `readRaw n` is one `read(n)` call on
the raw, unbuffered `FileIO` object (`raw_stdin = os.fdopen(0, "rb", 0)`):
a single system call that returns at most `n` bytes from the data currently
available — i.e. from the first pending chunk — and returns the empty string
only at end-of-stream. -/

/-- A byte stream split at the boundaries physical reads can observe. -/
abbrev Chunks := List (List Nat)

/-- Prepend a chunk, dropping it when empty (reads never deliver an empty
group except at end-of-stream). -/
def ccons (c : List Nat) (cs : Chunks) : Chunks :=
  if c.isEmpty then cs else c :: cs

/-- One `read(n)` call on the raw stream: bytes delivered and the stream
that remains.  Empty result means end-of-stream. -/
def readRaw (n : Nat) : Chunks → List Nat × Chunks
  | [] => ([], [])
  | c :: rest =>
      if c.isEmpty then readRaw n rest
      else (c.take n, ccons (c.drop n) rest)

/-- Total number of bytes left in the stream. -/
def totalLen (cs : Chunks) : Nat := (cs.map List.length).sum

/-! ### UTF-8 decoding

`bytes.decode("utf-8")` with the default strict error handler: rejects
stray continuation bytes, overlong encodings, surrogates and code points
past `U+10FFFF`. -/

/-- A UTF-8 continuation byte. -/
def isCont (b : Nat) : Bool := 0x80 ≤ b && b ≤ 0xBF

/-- Strict UTF-8 decoding of a byte list; `none` models
`UnicodeDecodeError`. -/
def utf8Decode : List Nat → Option (List Char)
  | [] => some []
  | b :: rest =>
      if b < 0x80 then
        (utf8Decode rest).map (Char.ofNat b :: ·)
      else if 0xC2 ≤ b && b ≤ 0xDF then
        match rest with
        | c1 :: rest' =>
            if isCont c1 then
              (utf8Decode rest').map (Char.ofNat ((b - 0xC0) * 64 + (c1 - 0x80)) :: ·)
            else none
        | _ => none
      else if 0xE0 ≤ b && b ≤ 0xEF then
        match rest with
        | c1 :: c2 :: rest' =>
            let lo1 : Nat := if b = 0xE0 then 0xA0 else 0x80
            let hi1 : Nat := if b = 0xED then 0x9F else 0xBF
            if lo1 ≤ c1 && c1 ≤ hi1 && isCont c2 then
              (utf8Decode rest').map
                (Char.ofNat ((b - 0xE0) * 4096 + (c1 - 0x80) * 64 + (c2 - 0x80)) :: ·)
            else none
        | _ => none
      else if 0xF0 ≤ b && b ≤ 0xF4 then
        match rest with
        | c1 :: c2 :: c3 :: rest' =>
            let lo1 : Nat := if b = 0xF0 then 0x90 else 0x80
            let hi1 : Nat := if b = 0xF4 then 0x8F else 0xBF
            if lo1 ≤ c1 && c1 ≤ hi1 && isCont c2 && isCont c3 then
              (utf8Decode rest').map
                (Char.ofNat ((b - 0xF0) * 262144 + (c1 - 0x80) * 4096 +
                  (c2 - 0x80) * 64 + (c3 - 0x80)) :: ·)
            else none
        | _ => none
      else none

/-- Bytes of an ASCII string, for building patterns and wire inputs. -/
def asciiB (s : String) : List Nat := s.toList.map Char.toNat

/-- Characters of a string (decoded text is `List Char` throughout). -/
def charsOf (s : String) : List Char := s.toList

/-! ### Framer — `McpBaseServer._read_header_and_content`

The source reads the header byte by byte (`raw_stdin.read(1)`), after each
byte checking, in order: `CR LF CR LF` as a substring, `LF LF` as a
substring, the literal backslash-escaped text `\r\n\r\n` (eight bytes) as a
substring, and finally the 4096-byte cap.  On the two line-break
terminators it parses `Content-Length` with `re.search(rb"Content-Length:
(\d+)")`, issues one `read(content_length)` and fails unless exactly that
many bytes came back; on the escaped-literal terminator it recomputes the
offset after the match, keeps any bytes already consumed past it as the
start of the body, issues one read for the remainder and skips the length
check.  Every failure returns `(None, None)`, modelled as `.fail`. -/

/-- `b"\r\n\r\n"`. -/
def crlf2 : List Nat := [13, 10, 13, 10]

/-- `b"\n\n"`. -/
def lf2 : List Nat := [10, 10]

/-- The literal backslash text `\r\n\r\n` — eight bytes. -/
def escLit : List Nat := [92, 114, 92, 110, 92, 114, 92, 110]

/-- Index of the first occurrence of `pat` as a contiguous run of `l`
(`bytes.find`). -/
def findSub (pat : List Nat) : List Nat → Option Nat
  | [] => if pat.isEmpty then some 0 else none
  | a :: t =>
      if pat.isPrefixOf (a :: t) then some 0
      else (findSub pat t).map (· + 1)

/-- `pat in l` on bytes. -/
def hasSub (pat l : List Nat) : Bool := (findSub pat l).isSome

/-- A decimal digit byte. -/
def isDigitB (b : Nat) : Bool := 48 ≤ b && b ≤ 57

/-- Value of a run of digit bytes. -/
def digitsVal (ds : List Nat) : Nat := ds.foldl (fun acc d => 10 * acc + (d - 48)) 0

/-- `re.search(rb"Content-Length: (\d+)", header)`: the first position
where the literal field text is followed by at least one digit; the
captured value is the maximal digit run there. -/
def findContentLength (l : List Nat) : Option Nat :=
  match l with
  | [] => none
  | _ :: t =>
      let pat := asciiB "Content-Length: "
      if pat.isPrefixOf l then
        let ds := (l.drop pat.length).takeWhile isDigitB
        if ds.isEmpty then findContentLength t else some (digitsVal ds)
      else findContentLength t

/-- Outcome of `_read_header_and_content`: the decoded header and body
texts, or `(None, None)`; both carry the stream that remains. -/
inductive FrameResult where
  | fail : Chunks → FrameResult
  | ok : List Char → List Char → Chunks → FrameResult
deriving DecidableEq

/-- The normal-terminator tail of the framer: parse `Content-Length`, one
`read(n)`, insist on exactly `n` bytes, decode both parts. -/
def normalFinish (acc : List Nat) (cs : Chunks) : FrameResult :=
  match findContentLength acc with
  | none => .fail cs
  | some n =>
      let r := readRaw n cs
      if r.1.length ≠ n then .fail r.2
      else
        match utf8Decode acc, utf8Decode r.1 with
        | some h, some c => .ok h c r.2
        | _, _ => .fail r.2

/-- The escaped-literal tail: reconstruct the offset just past the
eight-byte match, keep bytes already consumed beyond it as the body start,
read only the missing remainder (single read, no length check). -/
def escapedFinish (acc : List Nat) (cs : Chunks) : FrameResult :=
  let pos := (findSub escLit acc).getD 0 + 8
  let contentStart := acc.drop pos
  match findContentLength acc with
  | none => .fail cs
  | some n =>
      let r :=
        if contentStart.length < n then readRaw (n - contentStart.length) cs
        else ([], cs)
      match utf8Decode (acc.take pos), utf8Decode (contentStart ++ r.1) with
      | some h, some c => .ok h c r.2
      | _, _ => .fail r.2

/-- The byte-by-byte header scan, one iteration per `raw_stdin.read(1)`. -/
def headerLoop : Nat → List Nat → Chunks → FrameResult
  | 0, _, cs => .fail cs
  | fuel + 1, acc, cs =>
      let r := readRaw 1 cs
      if r.1.isEmpty then .fail r.2
      else
        let acc2 := acc ++ r.1
        if hasSub crlf2 acc2 then normalFinish acc2 r.2
        else if hasSub lf2 acc2 then normalFinish acc2 r.2
        else if hasSub escLit acc2 then escapedFinish acc2 r.2
        else if acc2.length > 4096 then .fail r.2
        else headerLoop fuel acc2 r.2

/-- `_read_header_and_content`: the full framer.  The fuel bound
`totalLen cs + 1` covers every iteration, since each one consumes a byte. -/
def readHeaderAndContent (cs : Chunks) : FrameResult :=
  headerLoop (totalLen cs + 1) [] cs

/-! ### Message codec — `json.loads`

A JSON parser for the fragment the engines exchange.  Numbers are modelled
as (optionally signed) integers; duplicate object keys keep the last value
in the first key position, as Python dicts do.  `none` models
`json.JSONDecodeError`. -/

/-- Skip JSON whitespace. -/
def skipWs : List Char → List Char
  | [] => []
  | c :: t =>
      if c = ' ' ∨ c = '\t' ∨ c = '\n' ∨ c = '\r' then skipWs t else c :: t

/-- Hexadecimal digit value. -/
def hexVal (c : Char) : Option Nat :=
  if '0' ≤ c ∧ c ≤ '9' then some (c.toNat - 48)
  else if 'a' ≤ c ∧ c ≤ 'f' then some (c.toNat - 87)
  else if 'A' ≤ c ∧ c ≤ 'F' then some (c.toNat - 55)
  else none

/-- Single-character string escapes (`\u` is handled separately). -/
def escChar (e : Char) : Option Char :=
  if e = '"' then some '"'
  else if e = '\\' then some '\\'
  else if e = '/' then some '/'
  else if e = 'n' then some '\n'
  else if e = 't' then some '\t'
  else if e = 'r' then some '\r'
  else if e = 'b' then some (Char.ofNat 8)
  else if e = 'f' then some (Char.ofNat 12)
  else none

/-- Body of a JSON string after the opening quote: the decoded characters
and the input past the closing quote. -/
def parseStrChars : List Char → Option (List Char × List Char)
  | [] => none
  | '"' :: t => some ([], t)
  | '\\' :: 'u' :: h1 :: h2 :: h3 :: h4 :: t =>
      match hexVal h1, hexVal h2, hexVal h3, hexVal h4 with
      | some a, some b, some c', some d =>
          let n := a * 4096 + b * 256 + c' * 16 + d
          if 0xD800 ≤ n ∧ n ≤ 0xDFFF then none
          else (parseStrChars t).map (fun p => (Char.ofNat n :: p.1, p.2))
      | _, _, _, _ => none
  | '\\' :: e :: t =>
      match escChar e with
      | some d => (parseStrChars t).map (fun p => (d :: p.1, p.2))
      | none => none
  | c :: t =>
      if c.toNat < 32 then none
      else (parseStrChars t).map (fun p => (c :: p.1, p.2))

/-- A run of decimal digits and the rest. -/
def spanDigits (l : List Char) : List Char × List Char :=
  (l.takeWhile Char.isDigit, l.dropWhile Char.isDigit)

/-- Value of a run of digit characters. -/
def digitsValC (ds : List Char) : Nat :=
  ds.foldl (fun acc d => 10 * acc + (d.toNat - 48)) 0

/-- `l` starts with the characters of `s`; returns the rest. -/
def eatLit (s : String) (l : List Char) : Option (List Char) :=
  if s.toList.isPrefixOf l then some (l.drop s.toList.length) else none

mutual

/-- Parse one JSON value (leading whitespace allowed). -/
def parseVal : Nat → List Char → Option (JsonV × List Char)
  | 0, _ => none
  | fuel + 1, cs =>
      match skipWs cs with
      | [] => none
      | c :: t =>
          if c = '"' then (parseStrChars t).map (fun p => (.str (String.mk p.1), p.2))
          else if c = 't' then (eatLit "rue" t).map ((JsonV.bool true, ·))
          else if c = 'f' then (eatLit "alse" t).map ((JsonV.bool false, ·))
          else if c = 'n' then (eatLit "ull" t).map ((JsonV.null, ·))
          else if c = '[' then
            match skipWs t with
            | ']' :: rest => some (.arr [], rest)
            | u => (parseItems fuel u).map (fun p => (.arr p.1, p.2))
          else if c = '\x7b' then
            match skipWs t with
            | '\x7d' :: rest => some (.obj [], rest)
            | u => (parseMembers fuel [] u).map (fun p => (.obj p.1, p.2))
          else if c = '-' then
            match spanDigits t with
            | ([], _) => none
            | (ds, rest) => some (.num (-(digitsValC ds : Int)), rest)
          else if c.isDigit then
            match spanDigits (c :: t) with
            | (ds, rest) => some (.num (digitsValC ds : Int), rest)
          else none

/-- Parse the elements of a non-empty array, up to and past `]`. -/
def parseItems : Nat → List Char → Option (List JsonV × List Char)
  | 0, _ => none
  | fuel + 1, cs =>
      match parseVal fuel cs with
      | none => none
      | some (v, rest) =>
          match skipWs rest with
          | ',' :: rest' => (parseItems fuel rest').map (fun p => (v :: p.1, p.2))
          | ']' :: rest' => some ([v], rest')
          | _ => none

/-- Parse the members of a non-empty object, up to and past the closing
brace, accumulating with dict-update semantics. -/
def parseMembers : Nat → List (String × JsonV) → List Char →
    Option (List (String × JsonV) × List Char)
  | 0, _, _ => none
  | fuel + 1, acc, cs =>
      match skipWs cs with
      | '"' :: t =>
          match parseStrChars t with
          | none => none
          | some (kcs, rest) =>
              match skipWs rest with
              | ':' :: rest' =>
                  match parseVal fuel rest' with
                  | none => none
                  | some (v, rest'') =>
                      let acc' := updateKV acc (String.mk kcs) v
                      match skipWs rest'' with
                      | ',' :: rest3 => parseMembers fuel acc' rest3
                      | '\x7d' :: rest3 => some (acc', rest3)
                      | _ => none
              | _ => none
      | _ => none

end

/-- `json.loads` on decoded text: one value and nothing but whitespace
after it. -/
def jsonLoads (cs : List Char) : Option JsonV :=
  match parseVal (cs.length + 1) cs with
  | some (v, rest) => if (skipWs rest).isEmpty then some v else none
  | none => none

/-! ### Dispatcher — `McpBaseServer._handle_request`

The server state carries the constructor arguments (`name`, `version`,
`tools`), the handler registry filled by `register_tool`, and the two
lifecycle flags `_initialized` and `_shutdown_requested`. -/

/-- A registered tool handler: the `arguments` mapping in, a structured
result out, or a raised exception carried as its `str()` text. -/
def Handler := JsonV → Except String JsonV

/-- The mutable state of a `McpBaseServer` instance. -/
structure ServerState where
  name : String
  version : String
  tools : List JsonV
  toolHandlers : List (String × Handler)
  initialized : Bool
  shutdownRequested : Bool

/-- `McpBaseServer.__init__(name, version, tools)`. -/
def mkServer (name version : String) (tools : List JsonV) : ServerState :=
  { name := name, version := version, tools := tools,
    toolHandlers := [], initialized := false, shutdownRequested := false }

/-- Handler registry lookup by name (first match; registration keeps keys
unique by overwriting). -/
def lookupHandler : List (String × Handler) → String → Option Handler
  | [], _ => none
  | (k, h) :: rest, n => if k = n then some h else lookupHandler rest n

/-- Overwrite-or-append used by `register_tool` (dict assignment). -/
def putHandler : List (String × Handler) → String → Handler →
    List (String × Handler)
  | [], n, h => [(n, h)]
  | (k, h') :: rest, n, h =>
      if k = n then (k, h) :: rest else (k, h') :: putHandler rest n h

/-- `register_tool(name, handler)`: mutates only the handler registry. -/
def registerTool (s : ServerState) (n : String) (h : Handler) : ServerState :=
  { s with toolHandlers := putHandler s.toolHandlers n h }

/-- `_create_capabilities()`: the initialize result, echoing the
descriptor list given at construction. -/
def createCapabilities (s : ServerState) : JsonV :=
  .obj [("serverInfo", .obj [("name", .str s.name), ("version", .str s.version)]),
        ("capabilities", .obj [("tools", .arr s.tools), ("resources", .arr [])]),
        ("status", .str "initialized")]

/-- A JSON-RPC response as the engines build it: `jsonrpc: "2.0"`, the
echoed id, and exactly one of `result` or `error`. -/
inductive RespBody where
  | result : JsonV → RespBody
  | error : Int → String → RespBody

/-- One outgoing response. -/
structure Resp where
  id : JsonV
  body : RespBody

/-- What one `_handle_request` call produced: a response (or none), or an
exception escaping to the loop's handler with its `str()` text. -/
inductive HandleResult where
  | resp : Option Resp → HandleResult
  | raised : String → HandleResult

/-- `tool_name` resolution in the `tool/execute` branch:
`params.get("tool_name")` when params is a dict, falling back to
`params.get("name")` when that gave `None`. -/
def resolveToolName (params : JsonV) : JsonV :=
  match params with
  | .obj kvs =>
      let t1 := pyGet kvs "tool_name"
      if t1.isNull then pyGet kvs "name" else t1
  | _ => .null

/-- `arguments = params.get("arguments", \x7b\x7d)` when params is a dict,
else the empty dict. -/
def resolveArgs (params : JsonV) : JsonV :=
  match params with
  | .obj kvs => pyGetD kvs "arguments" (.obj [])
  | _ => .obj []

/-- The registry lookup `self.tool_handlers.get(tool_name)`: only a string
name can be registered; `None`, numbers and booleans simply miss, while an
unhashable list or dict raises `TypeError` (handled at the call site). -/
def handlerFor (s : ServerState) : JsonV → Option Handler
  | .str nm => lookupHandler s.toolHandlers nm
  | _ => none

/-- `_handle_request(request)`: dispatch one decoded message, returning
the response (if any) and the successor state.  Follows the source branch
for branch; the `.raised` results are the two places an exception can
escape this function (an unhashable `tool_name`, and `method.startswith`
on a truthy non-string method). -/
def handleRequest (s : ServerState) (request : List (String × JsonV)) :
    HandleResult × ServerState :=
  let method := pyGet request "method"
  let params := pyGetD request "params" (.obj [])
  let reqId := pyGet request "id"
  match method with
  | .str m =>
      if m = "initialize" then
        let s' := { s with initialized := true }
        if reqId.isNull then (.resp none, s')
        else (.resp (some ⟨reqId, .result (createCapabilities s')⟩), s')
      else if m = "shutdown" then
        let s' := { s with shutdownRequested := true }
        if reqId.isNull then (.resp none, s')
        else (.resp (some ⟨reqId, .result .null⟩), s')
      else if m = "exit" then
        (.resp none, { s with shutdownRequested := true })
      else if m = "tool/execute" ∨ m = "mcp/tool/execute" then
        if reqId.isNull then (.resp none, s)
        else
          let toolName := resolveToolName params
          let args := resolveArgs params
          match toolName with
          | .arr _ => (.raised "unhashable type", s)
          | .obj _ => (.raised "unhashable type", s)
          | tn =>
              match handlerFor s tn with
              | some h =>
                  match h args with
                  | .ok r => (.resp (some ⟨reqId, .result r⟩), s)
                  | .error e =>
                      (.resp (some ⟨reqId,
                        .error (-32000) ("Tool execution error: " ++ e)⟩), s)
              | none =>
                  (.resp (some ⟨reqId,
                    .error (-32601) ("Tool not found: " ++ pyStr tn)⟩), s)
      else if m ≠ "" then
        if pyStartsWith m "$/" then (.resp none, s)
        else if reqId.isNull then (.resp none, s)
        else (.resp (some ⟨reqId, .error (-32601) ("Method not found: " ++ m)⟩), s)
      else if reqId.isNull then (.resp none, s)
      else (.resp (some ⟨reqId, .error (-32601) ("Method not found: " ++ m)⟩), s)
  | other =>
      if other.truthy then
        (.raised "AttributeError: object has no attribute startswith", s)
      else if reqId.isNull then (.resp none, s)
      else
        (.resp (some ⟨reqId,
          .error (-32601) ("Method not found: " ++ pyStr other)⟩), s)

/-! ### Message loop — `McpBaseServer._run_message_loop`

Each iteration: check the shutdown flag; frame one message; on a framing
failure (`(None, None)`) set the shutdown flag and continue — the source
guards this with `if not header_text and not content_text`, which `None`
always satisfies; otherwise `json.loads` the body (a decode failure or a
non-dict result just continues), dispatch, and emit the response if one
was produced.  An exception escaping `_handle_request` is caught, an id is
scraped out of the raw text with
`re.search(r"\"id\"\s*:\s*([0-9]+|\"[^\"]*\")")`, and when one is found an
`-32603` internal error is emitted. -/

/-- Try the id regex at the head of the text: the literal `"id"`, optional
whitespace, `:`, optional whitespace, then digits or a quoted string. -/
def matchIdAt (cs : List Char) : Option JsonV :=
  match eatLit "\"id\"" cs with
  | none => none
  | some rest =>
      match skipWs rest with
      | ':' :: rest' =>
          match skipWs rest' with
          | '"' :: rest'' =>
              let body := rest''.takeWhile (· ≠ '"')
              if (rest''.drop body.length).head? = some '"'
              then some (.str (String.mk body)) else none
          | u =>
              match spanDigits u with
              | ([], _) => none
              | (ds, _) => some (.num (digitsValC ds : Int))
      | _ => none

/-- `re.search` scan for the id pattern: first position that matches. -/
def findIdInText : List Char → Option JsonV
  | [] => none
  | c :: t =>
      match matchIdAt (c :: t) with
      | some v => some v
      | none => findIdInText t

/-- One run of `_run_message_loop`, bounded by fuel (each productive
iteration consumes at least one byte of the stream).  Returns the emitted
responses in order, the final state, and the stream left unread. -/
def msgLoop : Nat → ServerState → Chunks → List Resp →
    List Resp × ServerState × Chunks
  | 0, s, cs, out => (out, s, cs)
  | fuel + 1, s, cs, out =>
      if s.shutdownRequested then (out, s, cs)
      else
        match readHeaderAndContent cs with
        | .fail cs' =>
            msgLoop fuel { s with shutdownRequested := true } cs' out
        | .ok _ content cs' =>
            match jsonLoads content with
            | none => msgLoop fuel s cs' out
            | some (.obj kvs) =>
                match handleRequest s kvs with
                | (.resp r, s') => msgLoop fuel s' cs' (out ++ r.toList)
                | (.raised e, s') =>
                    match findIdInText content with
                    | some idv =>
                        msgLoop fuel s' cs'
                          (out ++ [⟨idv, .error (-32603) ("Internal error: " ++ e)⟩])
                    | none => msgLoop fuel s' cs' out
            | some _ => msgLoop fuel s cs' out

/-! ### The embedding engine — `mcp_embedding_server/server.py`

`handle_jsonrpc` reads headers with text-mode `readline`, then reads the
body with a resuming loop: `sys.stdin.read(min(1024, remaining))` until
`remaining` is zero, returning early only on end-of-stream.  Text-mode
`read(n)` on a `TextIOWrapper` delivers exactly `n` characters unless the
stream ends, so the body stream is modelled flat (`List Char`): chunk
boundaries are absorbed by the text layer, and only end-of-input can cut a
read short.  Dispatch is a chain on `request.get("method")`; the `embed`
tool's actual work is an external collaborator and enters as the
`embedImpl` parameter; methods outside the chain go to the external
`jsonrpcserver.dispatch`, kept abstract as `.libDispatch`. -/

/-- Text-mode `read(n)`: up to `n` characters, short only at
end-of-stream. -/
def textRead (n : Nat) (st : List Char) : List Char × List Char :=
  (st.take n, st.drop n)

/-- The body read loop of `handle_jsonrpc`: accumulate until `remaining`
is zero; an empty read (end-of-stream) abandons the message, modelled as
`none`. -/
def embReadExact : Nat → Nat → List Char → List Char →
    Option (List Char × List Char)
  | 0, _, _, _ => none
  | _ + 1, 0, acc, st => some (acc, st)
  | fuel + 1, remaining + 1, acc, st =>
      let r := textRead (min 1024 (remaining + 1)) st
      if r.1.isEmpty then none
      else embReadExact fuel (remaining + 1 - r.1.length) (acc ++ r.1) r.2

/-- Read exactly `n` characters of body, as the source loop does. -/
def embReadContent (n : Nat) (st : List Char) : Option (List Char × List Char) :=
  embReadExact (n + 1) n [] st

/-- The capabilities object the embedding engine sends from its inline
`initialize` branch. -/
def embInitResult : JsonV :=
  .obj [("serverInfo", .obj [("name", .str "embedding-mcp"),
                             ("version", .str "1.0.0")]),
        ("capabilities",
          .obj [("tools", .arr [.obj [("name", .str "embed"),
                 ("description",
                  .str "Generate embeddings from text using E5 models")]]),
                ("resources", .arr [])]),
        ("status", .str "initialized")]

/-- What one loop iteration of `handle_jsonrpc` does with a decoded
request: emit responses and continue or stop, or hand the request to the
external `jsonrpcserver.dispatch`. -/
inductive EmbStep where
  | emit : List Resp → Bool → EmbStep
  | libDispatch : List (String × JsonV) → EmbStep

/-- The dispatch chain of `handle_jsonrpc` for one decoded request dict.
`embedImpl` abstracts the observable outcome of the `embed` tool call
(its `Except.error` text standing for the exception the except-branch
formats).  A non-dict `params` in the `tool/execute` branch raises, which
the loop's catch-all turns into a `-32603` response with a null id. -/
def embHandle (embedImpl : JsonV → Except String JsonV)
    (request : List (String × JsonV)) : EmbStep :=
  let method := pyGet request "method"
  let reqId := pyGet request "id"
  match method with
  | .str m =>
      if m = "initialize" then .emit [⟨reqId, .result embInitResult⟩] true
      else if m = "tool/execute" then
        match pyGetD request "params" (.obj []) with
        | .obj pkvs =>
            let toolName := pyGet pkvs "tool_name"
            let args := pyGetD pkvs "arguments" (.obj [])
            match toolName with
            | .str nm =>
                if nm = "embed" then
                  match embedImpl args with
                  | .ok r => .emit [⟨reqId, .result r⟩] true
                  | .error e =>
                      .emit [⟨reqId,
                        .error (-32000) ("Tool execution failed: " ++ e)⟩] true
                else
                  .emit [⟨reqId,
                    .error (-32601) ("Tool not found: " ++ nm)⟩] true
            | other =>
                .emit [⟨reqId,
                  .error (-32601) ("Tool not found: " ++ pyStr other)⟩] true
        | _ =>
            .emit [⟨.null,
              .error (-32603)
                ("Internal error: object has no attribute get")⟩] true
      else if m = "shutdown" then .emit [⟨reqId, .result .null⟩] false
      else if m = "exit" then .emit [] false
      else .libDispatch request
  | _ => .libDispatch request

/-! ### Wire fixtures used by concrete counterexamples and witnesses -/

/-- A fresh server with no registered tools. -/
def demoServer : ServerState := mkServer "srv" "1.0" []

/-- A correctly framed `shutdown` request with id 1 (body is 28 bytes). -/
def wireShutdown : List Nat :=
  asciiB "Content-Length: 28\r\n\r\n\x7b\"id\":1,\"method\":\"shutdown\"\x7d"

/-- A correctly framed request with id 2 and method `x` (body is 21
bytes). -/
def wireNext : List Nat :=
  asciiB "Content-Length: 21\r\n\r\n\x7b\"id\":2,\"method\":\"x\"\x7d"

/-- A header with a terminator but no `Content-Length` field — one of the
framing failures of claim C2. -/
def wireBadHeader : List Nat := asciiB "X: 1\r\n\r\n"

/-! ### Claim C3 -/

/-- C3: an `initialize` message with no id produces no response — that
part holds — but the claim also says the lifecycle transition to
Initialized does not occur, and the code sets `self._initialized = True`
before it ever checks the id (base_server.py line 143 against line 144).
This theorem evaluates the dispatcher at the failing input: no response,
yet the flag flips from `false` to `true`. -/
theorem claim_c3_initialize_notification_transitions :
    (handleRequest demoServer [("method", .str "initialize")]).1 = .resp none
    ∧ (handleRequest demoServer [("method", .str "initialize")]).2.initialized = true
    ∧ demoServer.initialized = false :=
  ⟨rfl, rfl, rfl⟩

/-! ### Claim C2 -/

/-- C2: the claim says a framing failure abandons only the current read
attempt and the loop continues with the next message.  In the code every
framing failure returns `(None, None)`, and the loop's guard
`if not header_text and not content_text` is satisfied by `None`, so
`_shutdown_requested` is set and the loop exits.  Evaluated here at a
header lacking `Content-Length` followed by a complete, valid request:
no response is emitted, the shutdown flag is set, and the valid next
message is left unread in the stream. -/
theorem claim_c2_framing_failure_stops_loop :
    msgLoop 8 demoServer [wireBadHeader ++ wireNext] [] =
      ([], { demoServer with shutdownRequested := true }, [wireNext]) :=
  rfl

/-! ### Claim C5 -/

/-- C5 counterexample: the claim says the dispatch loop keeps running
after `shutdown` and still reads messages arriving before `exit`.  On the
trace `shutdown(id=1)` followed by a framed request with id 2, the code
answers the shutdown with a null result and then exits the loop at the
next iteration check, leaving the second message unread. -/
theorem claim_c5_counterexample :
    msgLoop 8 demoServer [wireShutdown ++ wireNext] [] =
      ([⟨.num 1, .result .null⟩],
       { demoServer with shutdownRequested := true }, [wireNext]) :=
  rfl

/-- C5 as amended: a `shutdown` message sets the shutdown flag and, when
an id is present, is answered with a null result; the dispatch loop
checks the flag at the top of each iteration and exits as soon as it is
set, so messages arriving after `shutdown` are not read; with the flag
clear, end-of-input also terminates the loop (after one failing read that
sets the flag). -/
theorem claim_c5_amended :
    (∀ (s : ServerState) (kvs : List (String × JsonV)),
      pyGet kvs "method" = .str "shutdown" →
      (handleRequest s kvs).2.shutdownRequested = true
      ∧ ((pyGet kvs "id").isNull = false →
          (handleRequest s kvs).1 = .resp (some ⟨pyGet kvs "id", .result .null⟩)))
    ∧ (∀ (fuel : Nat) (s : ServerState) (cs : Chunks) (out : List Resp),
      s.shutdownRequested = true → msgLoop fuel s cs out = (out, s, cs))
    ∧ (∀ (fuel : Nat) (s : ServerState) (out : List Resp),
      s.shutdownRequested = false → 2 ≤ fuel →
      msgLoop fuel s [] out = (out, { s with shutdownRequested := true }, [])) := by
  refine ⟨fun s kvs hm => ⟨?_, fun hid => ?_⟩, fun fuel s cs out h => ?_, ?_⟩
  · simp [handleRequest, hm]
    split <;> rfl
  · simp [handleRequest, hm, hid]
  · cases fuel <;> simp [msgLoop, h]
  · intro fuel s out h hf
    match fuel, hf with
    | n + 2, _ =>
      have h2 : msgLoop (n + 2) s [] out =
          msgLoop (n + 1) { s with shutdownRequested := true } [] out := by
        simp [msgLoop, h, readHeaderAndContent, totalLen, headerLoop, readRaw]
      rw [h2]
      simp [msgLoop]

/-- Witness for `claim_c5_amended`: instantiated at a concrete shutdown
request with id 1, a concrete stopped loop, and a concrete end-of-input
loop. -/
theorem claim_c5_amended_witness :
    ((handleRequest demoServer [("method", .str "shutdown"), ("id", .num 1)]).2.shutdownRequested = true
      ∧ ((pyGet [("method", .str "shutdown"), ("id", .num 1)] "id").isNull = false →
          (handleRequest demoServer [("method", .str "shutdown"), ("id", .num 1)]).1 =
            .resp (some ⟨pyGet [("method", .str "shutdown"), ("id", .num 1)] "id", .result .null⟩)))
    ∧ msgLoop 4 { demoServer with shutdownRequested := true } [wireNext] [] =
        ([], { demoServer with shutdownRequested := true }, [wireNext])
    ∧ msgLoop 2 demoServer [] [] = ([], { demoServer with shutdownRequested := true }, []) :=
  ⟨claim_c5_amended.1 demoServer [("method", .str "shutdown"), ("id", .num 1)] rfl,
   claim_c5_amended.2.1 4 { demoServer with shutdownRequested := true } [wireNext] [] rfl,
   claim_c5_amended.2.2 2 demoServer [] rfl (by decide)⟩

/-! ### Claim C10 -/

/-- A sample advertised descriptor and a server used to exhibit the
advertised/registered split: one descriptor `adv` is advertised with no
handler, and one handler `hidden` is registered without a descriptor. -/
def splitServer : ServerState :=
  registerTool (mkServer "n" "v" [.obj [("name", .str "adv")]])
    "hidden" (fun a => .ok a)

/-- C10: the capabilities in every initialize response advertise exactly
the descriptor list supplied at construction (`self.tools`), and
`register_tool` writes only the handler map, leaving every other field —
in particular the advertised descriptors — unchanged.  Consequently a
tool can be advertised without a registered handler (`adv`), or be
invocable through a registered handler without being advertised
(`hidden`). -/
theorem claim_c10_capabilities_are_constructor_tools :
    (∀ (nm ver : String) (ts : List JsonV),
      (mkServer nm ver ts).tools = ts ∧ (mkServer nm ver ts).toolHandlers = [])
    ∧ (∀ (s : ServerState) (n : String) (h : Handler),
      (registerTool s n h).tools = s.tools
      ∧ (registerTool s n h).name = s.name
      ∧ (registerTool s n h).version = s.version
      ∧ (registerTool s n h).initialized = s.initialized
      ∧ (registerTool s n h).shutdownRequested = s.shutdownRequested)
    ∧ (∀ s : ServerState, createCapabilities s =
        .obj [("serverInfo", .obj [("name", .str s.name), ("version", .str s.version)]),
              ("capabilities", .obj [("tools", .arr s.tools), ("resources", .arr [])]),
              ("status", .str "initialized")])
    ∧ (∀ (s : ServerState) (i : Int),
      (handleRequest s [("method", .str "initialize"), ("id", .num i)]).1 =
        .resp (some ⟨.num i, .result (createCapabilities s)⟩))
    ∧ splitServer.tools = [.obj [("name", .str "adv")]]
    ∧ lookupHandler splitServer.toolHandlers "adv" = none
    ∧ (lookupHandler splitServer.toolHandlers "hidden").isSome = true :=
  ⟨fun _ _ _ => ⟨rfl, rfl⟩,
   fun _ _ _ => ⟨rfl, rfl, rfl, rfl, rfl⟩,
   fun _ => rfl,
   fun _ _ => rfl,
   rfl, rfl, rfl⟩

/-! ### Claim C8 -/

/-- C8: a `tool/execute` request whose registered handler raises is
answered with error code `-32000` whose message embeds the string form of
the failure after `Tool execution error: `; the dispatcher state is
unchanged (in particular the shutdown flag, so the loop continues) and
the failure never escapes the dispatch boundary. -/
theorem claim_c8_handler_failure_surfaced (s : ServerState)
    (kvs : List (String × JsonV)) (nm : String) (h : Handler) (e : String)
    (hm : pyGet kvs "method" = .str "tool/execute")
    (hid : (pyGet kvs "id").isNull = false)
    (htn : resolveToolName (pyGetD kvs "params" (.obj [])) = .str nm)
    (hh : lookupHandler s.toolHandlers nm = some h)
    (he : h (resolveArgs (pyGetD kvs "params" (.obj []))) = .error e) :
    (handleRequest s kvs).1 =
      .resp (some ⟨pyGet kvs "id", .error (-32000) ("Tool execution error: " ++ e)⟩)
    ∧ (handleRequest s kvs).2 = s := by
  simp [handleRequest, hm, hid, htn, handlerFor, hh, he]

/-- A server with one registered handler that always raises. -/
def failingServer : ServerState :=
  registerTool demoServer "boom" (fun _ => .error "kaput")

/-- Witness for `claim_c8_handler_failure_surfaced` at a concrete failing
handler. -/
theorem claim_c8_witness :
    (handleRequest failingServer
        [("method", .str "tool/execute"), ("id", .num 9),
         ("params", .obj [("tool_name", .str "boom")])]).1 =
      .resp (some ⟨.num 9, .error (-32000) ("Tool execution error: " ++ "kaput")⟩)
    ∧ (handleRequest failingServer
        [("method", .str "tool/execute"), ("id", .num 9),
         ("params", .obj [("tool_name", .str "boom")])]).2 = failingServer :=
  claim_c8_handler_failure_surfaced failingServer _ "boom"
    (fun _ => .error "kaput") "kaput" rfl rfl rfl rfl rfl

/-! ### Claim C9 -/

/-- C9: a `tool/execute` request whose params is not a mapping, or is a
mapping with neither a `tool_name` nor a `name` field, resolves the tool
name to Python `None` and is answered — not dropped, and without raising
— with error `-32601` and the literal message `Tool not found: None`. -/
theorem claim_c9_missing_tool_name (s : ServerState)
    (kvs : List (String × JsonV))
    (hm : pyGet kvs "method" = .str "tool/execute")
    (hid : (pyGet kvs "id").isNull = false)
    (hP : match pyGetD kvs "params" (.obj []) with
          | .obj pk => listLookup pk "tool_name" = none ∧ listLookup pk "name" = none
          | _ => True) :
    resolveToolName (pyGetD kvs "params" (.obj [])) = .null
    ∧ (handleRequest s kvs).1 =
        .resp (some ⟨pyGet kvs "id", .error (-32601) "Tool not found: None"⟩) := by
  have hres : resolveToolName (pyGetD kvs "params" (.obj [])) = .null := by
    cases hp : pyGetD kvs "params" (.obj []) with
    | obj pk =>
        rw [hp] at hP
        simp [resolveToolName, pyGet, hP.1, hP.2, JsonV.isNull]
    | null => simp [resolveToolName]
    | bool b => simp [resolveToolName]
    | num n => simp [resolveToolName]
    | str s' => simp [resolveToolName]
    | arr xs => simp [resolveToolName]
  refine ⟨hres, ?_⟩
  simp [handleRequest, hm, hid, hres, handlerFor, pyStr]

/-- Witness for `claim_c9_missing_tool_name`: params is the number 3, not
a mapping. -/
theorem claim_c9_witness :
    resolveToolName (pyGetD
        [("method", .str "tool/execute"), ("id", .num 5), ("params", .num 3)]
        "params" (.obj [])) = .null
    ∧ (handleRequest demoServer
        [("method", .str "tool/execute"), ("id", .num 5), ("params", .num 3)]).1 =
        .resp (some ⟨.num 5, .error (-32601) "Tool not found: None"⟩) :=
  claim_c9_missing_tool_name demoServer _ rfl rfl trivial

/-! ### Claim C7 -/

/-- C7: in both engines, a `tool/execute` request (non-null id) naming a
tool absent from the registry is answered with error `-32601` and the
message `Tool not found: ` followed by the requested name — the base
server by registry lookup, the embedding server against its single
`embed` tool. -/
theorem claim_c7_unknown_tool :
    (∀ (s : ServerState) (kvs : List (String × JsonV)) (nm : String),
      pyGet kvs "method" = .str "tool/execute" →
      (pyGet kvs "id").isNull = false →
      resolveToolName (pyGetD kvs "params" (.obj [])) = .str nm →
      lookupHandler s.toolHandlers nm = none →
      (handleRequest s kvs).1 =
        .resp (some ⟨pyGet kvs "id", .error (-32601) ("Tool not found: " ++ nm)⟩))
    ∧ (∀ (f : JsonV → Except String JsonV) (kvs pkvs : List (String × JsonV))
        (nm : String),
      pyGet kvs "method" = .str "tool/execute" →
      pyGetD kvs "params" (.obj []) = .obj pkvs →
      pyGet pkvs "tool_name" = .str nm →
      nm ≠ "embed" →
      embHandle f kvs =
        .emit [⟨pyGet kvs "id", .error (-32601) ("Tool not found: " ++ nm)⟩] true) := by
  constructor
  · intro s kvs nm hm hid htn hh
    simp [handleRequest, hm, hid, htn, handlerFor, hh, pyStr]
  · intro f kvs pkvs nm hm hp htn hne
    simp [embHandle, hm, hp, htn, hne]

/-- Witness for `claim_c7_unknown_tool`: the tool `ghost` is unknown to
both engines. -/
theorem claim_c7_witness :
    (handleRequest demoServer
        [("method", .str "tool/execute"), ("id", .num 4),
         ("params", .obj [("tool_name", .str "ghost")])]).1 =
      .resp (some ⟨.num 4, .error (-32601) ("Tool not found: " ++ "ghost")⟩)
    ∧ embHandle (fun a => .ok a)
        [("method", .str "tool/execute"), ("id", .num 4),
         ("params", .obj [("tool_name", .str "ghost")])] =
      .emit [⟨.num 4, .error (-32601) ("Tool not found: " ++ "ghost")⟩] true :=
  ⟨claim_c7_unknown_tool.1 demoServer _ "ghost" rfl rfl rfl rfl,
   claim_c7_unknown_tool.2 (fun a => .ok a) _ [("tool_name", .str "ghost")]
     "ghost" rfl rfl rfl (by decide)⟩

/-! ### Claim C1 -/

/-- Whether a dispatch outcome is an escaped exception. -/
def raisedB : HandleResult → Bool
  | .raised _ => true
  | _ => false

/-- Every response the dispatcher produces echoes the request id
verbatim. -/
theorem handle_resp_id_echo (s : ServerState) (kvs : List (String × JsonV)) (r : Resp)
    (h : (handleRequest s kvs).1 = .resp (some r)) : r.id = pyGet kvs "id" := by
  cases hmv : pyGet kvs "method" <;>
    simp only [handleRequest, hmv] at h <;>
    split_ifs at h <;>
    (try split at h) <;>
    (try split at h) <;>
    (try split at h) <;>
    (try exact HandleResult.noConfusion h) <;>
    (injection h with h1) <;>
    (try exact Option.noConfusion h1) <;>
    (injection h1 with h2) <;> (subst h2) <;> rfl

/-- A message with a null (or absent) id never gets a response from the
dispatcher, provided dispatch does not raise. -/
theorem handle_null_id_resp_none (s : ServerState) (kvs : List (String × JsonV))
    (hid : (pyGet kvs "id").isNull = true)
    (hnr : raisedB (handleRequest s kvs).1 = false) :
    (handleRequest s kvs).1 = .resp none := by
  cases hmv : pyGet kvs "method" <;>
    simp only [handleRequest, hmv] at hnr ⊢ <;>
    split_ifs at hnr ⊢ <;>
    simp_all [raisedB]

/-- A request (non-null id) whose method is a string other than `exit`
and not `$/`-prefixed always gets a response, provided dispatch does not
raise. -/
theorem handle_allowed_some (s : ServerState) (kvs : List (String × JsonV)) (m : String)
    (hm : pyGet kvs "method" = .str m)
    (hnr : raisedB (handleRequest s kvs).1 = false)
    (hid : (pyGet kvs "id").isNull = false)
    (hex : m ≠ "exit")
    (hsw : pyStartsWith m "$/" = false) :
    ∃ r, (handleRequest s kvs).1 = .resp (some r) := by
  by_cases h1 : m = "initialize"
  · subst h1
    exact ⟨⟨pyGet kvs "id", .result (createCapabilities { s with initialized := true })⟩,
      by simp [handleRequest, hm, hid]⟩
  by_cases h2 : m = "shutdown"
  · subst h2
    exact ⟨⟨pyGet kvs "id", .result .null⟩, by simp [handleRequest, hm, hid]⟩
  by_cases h4 : m = "tool/execute" ∨ m = "mcp/tool/execute"
  · cases htn : resolveToolName (pyGetD kvs "params" (.obj [])) with
    | arr xs =>
        exfalso
        simp [handleRequest, hm, h1, h2, hex, h4, hid, htn, raisedB] at hnr
    | obj o =>
        exfalso
        simp [handleRequest, hm, h1, h2, hex, h4, hid, htn, raisedB] at hnr
    | str nm =>
        cases hh : lookupHandler s.toolHandlers nm with
        | none =>
            exact ⟨⟨pyGet kvs "id", .error (-32601) ("Tool not found: " ++ nm)⟩,
              by simp [handleRequest, hm, h1, h2, hex, h4, hid, htn, handlerFor, hh, pyStr]⟩
        | some hdl =>
            cases hargs : hdl (resolveArgs (pyGetD kvs "params" (.obj []))) with
            | ok rv =>
                exact ⟨⟨pyGet kvs "id", .result rv⟩,
                  by simp [handleRequest, hm, h1, h2, hex, h4, hid, htn, handlerFor, hh, hargs]⟩
            | error e =>
                exact ⟨⟨pyGet kvs "id", .error (-32000) ("Tool execution error: " ++ e)⟩,
                  by simp [handleRequest, hm, h1, h2, hex, h4, hid, htn, handlerFor, hh, hargs]⟩
    | null =>
        exact ⟨⟨pyGet kvs "id", .error (-32601) ("Tool not found: " ++ pyStr .null)⟩,
          by simp [handleRequest, hm, h1, h2, hex, h4, hid, htn, handlerFor]⟩
    | bool b =>
        exact ⟨⟨pyGet kvs "id", .error (-32601) ("Tool not found: " ++ pyStr (.bool b))⟩,
          by simp [handleRequest, hm, h1, h2, hex, h4, hid, htn, handlerFor]⟩
    | num n =>
        exact ⟨⟨pyGet kvs "id", .error (-32601) ("Tool not found: " ++ pyStr (.num n))⟩,
          by simp [handleRequest, hm, h1, h2, hex, h4, hid, htn, handlerFor]⟩
  by_cases h5 : m = ""
  · subst h5
    exact ⟨⟨pyGet kvs "id", .error (-32601) ("Method not found: " ++ "")⟩,
      by simp [handleRequest, hm, h1, h2, h4, hid]⟩
  · exact ⟨⟨pyGet kvs "id", .error (-32601) ("Method not found: " ++ m)⟩,
      by simp [handleRequest, hm, h1, h2, hex, h4, h5, hsw, hid]⟩

/-- C1 counterexample: the claim says a response is emitted exactly when
the message is a request (non-null id) and the connection is alive.  The
message `$/progress` with id 7 is such a request, the server state is
untouched (alive), and yet no response is produced
(base_server.py lines 229-233 silently ignore `$/`-prefixed methods
regardless of id). -/
theorem claim_c1_counterexample :
    (handleRequest demoServer [("method", .str "$/progress"), ("id", .num 7)]).1 = .resp none
    ∧ (handleRequest demoServer [("method", .str "$/progress"), ("id", .num 7)]).2 = demoServer
    ∧ (pyGet [("method", .str "$/progress"), ("id", .num 7)] "id").isNull = false :=
  ⟨rfl, rfl, rfl⟩

/-- C1 as amended: in the base dispatcher, for a message whose method is
a string and whose dispatch does not raise, a response is emitted iff the
message carries a non-null id AND the method is neither `exit` nor
`$/`-prefixed; every emitted response echoes the request id verbatim, and
at most one response is produced per message (the dispatcher returns an
`Option`).  The embedding engine deviates further: it answers an
`initialize` notification with a null id, exhibited concretely in the
witness below. -/
theorem claim_c1_amended (s : ServerState) (kvs : List (String × JsonV)) (m : String)
    (hm : pyGet kvs "method" = .str m)
    (hnr : raisedB (handleRequest s kvs).1 = false) :
    ((∃ r, (handleRequest s kvs).1 = .resp (some r)) ↔
      ((pyGet kvs "id").isNull = false ∧ m ≠ "exit" ∧ pyStartsWith m "$/" = false))
    ∧ (∀ r, (handleRequest s kvs).1 = .resp (some r) → r.id = pyGet kvs "id") := by
  refine ⟨⟨?_, ?_⟩, fun r hr => handle_resp_id_echo s kvs r hr⟩
  · rintro ⟨r, hr⟩
    refine ⟨?_, ?_, ?_⟩
    · cases hid : (pyGet kvs "id").isNull
      · rfl
      · rw [handle_null_id_resp_none s kvs hid hnr] at hr
        exact absurd hr (by simp)
    · intro he
      subst he
      have hnone : (handleRequest s kvs).1 = .resp none := by simp [handleRequest, hm]
      rw [hnone] at hr
      exact absurd hr (by simp)
    · cases hsw : pyStartsWith m "$/"
      · rfl
      · exfalso
        have hne1 : m ≠ "initialize" := by
          intro h; rw [h] at hsw; exact absurd hsw (by decide)
        have hne2 : m ≠ "shutdown" := by
          intro h; rw [h] at hsw; exact absurd hsw (by decide)
        have hne3 : m ≠ "exit" := by
          intro h; rw [h] at hsw; exact absurd hsw (by decide)
        have hne4 : ¬(m = "tool/execute" ∨ m = "mcp/tool/execute") := by
          rintro (h | h) <;> (rw [h] at hsw; exact absurd hsw (by decide))
        have hne5 : m ≠ "" := by
          intro h; rw [h] at hsw; exact absurd hsw (by decide)
        have hnone : (handleRequest s kvs).1 = .resp none := by
          simp [handleRequest, hm, hne1, hne2, hne3, hne4, hne5, hsw]
        rw [hnone] at hr
        exact absurd hr (by simp)
  · rintro ⟨hid, hex, hsw⟩
    exact handle_allowed_some s kvs m hm hnr hid hex hsw

/-- Witness for `claim_c1_amended` at a concrete unknown-method request
(id 3, method `foo`), plus the concrete embedding-engine deviation: an
`initialize` with no id still gets a response there, carrying id null. -/
theorem claim_c1_amended_witness :
    (((∃ r, (handleRequest demoServer [("method", .str "foo"), ("id", .num 3)]).1 =
        .resp (some r)) ↔
      ((pyGet [("method", .str "foo"), ("id", .num 3)] "id").isNull = false
        ∧ "foo" ≠ "exit" ∧ pyStartsWith "foo" "$/" = false))
    ∧ (∀ r, (handleRequest demoServer [("method", .str "foo"), ("id", .num 3)]).1 =
        .resp (some r) → r.id = pyGet [("method", .str "foo"), ("id", .num 3)] "id"))
    ∧ embHandle (fun a => .ok a) [("method", .str "initialize")] =
        .emit [⟨.null, .result embInitResult⟩] true :=
  ⟨claim_c1_amended demoServer [("method", .str "foo"), ("id", .num 3)] "foo" rfl rfl,
   rfl⟩

/-! ### Framing lemmas for claims C4 and C6 -/

theorem hasSub_iff (pat l : List Nat) : hasSub pat l = true ↔ pat <:+: l := by
  induction l with
  | nil =>
      simp [hasSub, findSub, List.isEmpty_iff]
  | cons a t ih =>
      simp only [hasSub, findSub] at *
      by_cases hp : pat.isPrefixOf (a :: t)
      · simp [hp, List.infix_cons_iff]
        exact .inl (List.isPrefixOf_iff_prefix.mp hp)
      · simp [hp, List.infix_cons_iff, ih]
        intro hpre
        exact absurd (List.isPrefixOf_iff_prefix.mpr hpre) hp

def noTerm (l : List Nat) : Bool :=
  !(hasSub crlf2 l || hasSub lf2 l || hasSub escLit l)

theorem noTerm_parts {l : List Nat} (h : noTerm l = true) :
    hasSub crlf2 l = false ∧ hasSub lf2 l = false ∧ hasSub escLit l = false := by
  simp [noTerm] at h
  exact ⟨h.1.1, h.1.2, h.2⟩

theorem escLit_not_infix_append (hdr s : List Nat) (h92 : 92 ∉ hdr)
    (hs : s.length ≤ 7) : ¬ escLit <:+: (hdr ++ s) := by
  rintro ⟨u, v, huv⟩
  have hlen : u.length + (escLit.length + v.length) = hdr.length + s.length := by
    have := congrArg List.length huv
    simpa [List.length_append, Nat.add_assoc] using this
  have hlt : u.length < hdr.length := by
    simp [escLit] at hlen
    omega
  have h1 : (u ++ (escLit ++ v))[u.length]? = some 92 := by
    rw [List.getElem?_append_right (Nat.le_refl _)]
    simp [escLit]
  have h2 : (hdr ++ s)[u.length]? = some 92 := by
    rw [← h1, ← huv]
    simp [List.append_assoc]
  rw [List.getElem?_append_left hlt] at h2
  exact h92 (List.getElem?_mem h2)

theorem readRaw_exact (n : Nat) (body tail : List Nat) (h : body.length = n) :
    readRaw n (ccons (body ++ tail) []) = (body, ccons tail []) := by
  cases body with
  | nil =>
      subst h
      cases tail with
      | nil => rfl
      | cons x xs => rfl
  | cons x xs =>
      have hc : ccons ((x :: xs) ++ tail) [] = ((x :: xs) ++ tail) :: [] := rfl
      rw [hc]
      simp only [readRaw]
      rw [if_neg (by simp)]
      rw [List.take_left' h, List.drop_left' h]

theorem readRaw_one_cons (b : Nat) (t : List Nat) (cs : Chunks) :
    readRaw 1 ((b :: t) :: cs) = ([b], ccons t cs) := by
  simp only [readRaw]
  rw [if_neg (by simp)]
  simp

theorem headerLoop_step (f : Nat) (acc b : _) (t : List Nat) (cs : Chunks)
    (hnt : noTerm (acc ++ [b]) = true)
    (hlen : (acc ++ [b]).length ≤ 4096) :
    headerLoop (f + 1) acc ((b :: t) :: cs) = headerLoop f (acc ++ [b]) (ccons t cs) := by
  obtain ⟨hc1, hc2, hc3⟩ := noTerm_parts hnt
  conv_lhs => rw [headerLoop]
  rw [readRaw_one_cons]
  simp only [List.isEmpty_cons, Bool.false_eq_true, if_false]
  rw [hc1, hc2, hc3]
  simp only [Bool.false_eq_true, if_false]
  rw [if_neg (by omega)]

theorem headerLoop_advance (post : List Nat) :
    ∀ (acc q : List Nat) (cs : Chunks) (fuel : Nat),
    post.length ≤ fuel →
    (∀ k, 1 ≤ k → k ≤ post.length →
      noTerm (acc ++ post.take k) = true ∧ (acc ++ post.take k).length ≤ 4096) →
    headerLoop fuel acc (ccons (post ++ q) cs) =
      headerLoop (fuel - post.length) (acc ++ post) (ccons q cs) := by
  induction post with
  | nil =>
      intro acc q cs fuel _ _
      simp
  | cons p post' ih =>
      intro acc q cs fuel hfuel hsafe
      match fuel, hfuel with
      | f + 1, hfuel =>
        have h1 := hsafe 1 (Nat.le_refl 1) (by simp)
        simp only [List.take_cons, List.take_zero] at h1
        have hcc : ccons ((p :: post') ++ q) cs = (p :: (post' ++ q)) :: cs := rfl
        rw [hcc, headerLoop_step f acc p (post' ++ q) cs h1.1 h1.2]
        have hrec := ih (acc ++ [p]) q cs f (by simp at hfuel; omega) ?_
        · rw [hrec]
          have e1 : acc ++ [p] ++ post' = acc ++ (p :: post') := by simp
          have e2 : f - post'.length = (f + 1) - (p :: post').length := by
            simp
          rw [e1, e2]
        · intro k hk1 hk2
          have := hsafe (k + 1) (by omega) (by simp; omega)
          simpa [List.take_succ_cons, List.append_assoc] using this

theorem hasSub_false_of_not_mem (pat l : List Nat) (x : Nat) (hx : x ∈ pat)
    (hnx : x ∉ l) : hasSub pat l = false := by
  cases h : hasSub pat l with
  | false => rfl
  | true => exact absurd (List.IsInfix.mem hx ((hasSub_iff pat l).mp h)) hnx

theorem hasSub_false_of_count (pat l : List Nat) (x : Nat)
    (hc : l.count x < pat.count x) : hasSub pat l = false := by
  cases h : hasSub pat l with
  | false => rfl
  | true =>
      have := List.IsInfix.count_le ((hasSub_iff pat l).mp h) x
      omega

theorem noTerm_intro {l : List Nat} (h1 : hasSub crlf2 l = false)
    (h2 : hasSub lf2 l = false) (h3 : hasSub escLit l = false) :
    noTerm l = true := by
  simp [noTerm, h1, h2, h3]

theorem count_eq_zero_of_forall {l : List Nat} {x : Nat}
    (h : ∀ b ∈ l, b ≠ x) : l.count x = 0 := by
  rw [List.count_eq_zero]
  intro hx
  exact (h x hx) rfl

theorem noTerm_append (hdr s : List Nat)
    (hHdr : ∀ b ∈ hdr, b ≠ 13 ∧ b ≠ 10 ∧ b ≠ 92)
    (hs10 : s.count 10 ≤ 1)
    (hs7 : s.length ≤ 7) :
    noTerm (hdr ++ s) = true := by
  have h10 : (hdr ++ s).count 10 ≤ 1 := by
    rw [List.count_append]
    rw [count_eq_zero_of_forall (fun b hb => (hHdr b hb).2.1)]
    omega
  have h92 : 92 ∉ hdr := fun hm => (hHdr 92 hm).2.2 rfl
  refine noTerm_intro ?_ ?_ ?_
  · exact hasSub_false_of_count _ _ 10 (by rw [show crlf2.count 10 = 2 from rfl]; omega)
  · exact hasSub_false_of_count _ _ 10 (by rw [show lf2.count 10 = 2 from rfl]; omega)
  · cases h : hasSub escLit (hdr ++ s) with
    | false => rfl
    | true =>
        exact absurd ((hasSub_iff _ _).mp h) (escLit_not_infix_append hdr s h92 hs7)

theorem scan_safe (hdr tp : List Nat)
    (hHdr : ∀ b ∈ hdr, b ≠ 13 ∧ b ≠ 10 ∧ b ≠ 92)
    (hcap : hdr.length + 8 ≤ 4096)
    (htp10 : tp.count 10 ≤ 1)
    (htplen : tp.length ≤ 7) :
    ∀ k, 1 ≤ k → k ≤ (hdr ++ tp).length →
      noTerm ([] ++ (hdr ++ tp).take k) = true
      ∧ ([] ++ (hdr ++ tp).take k).length ≤ 4096 := by
  intro k _ hk
  simp only [List.nil_append]
  constructor
  · rcases Nat.le_total k hdr.length with hle | hge
    · rw [List.take_append_of_le_length hle]
      have := noTerm_append (hdr.take k) []
        (fun b hb => hHdr b (List.take_subset k hdr hb)) (by simp) (by simp)
      simpa using this
    · rw [List.take_append_eq_append_take, List.take_of_length_le hge]
      refine noTerm_append hdr (tp.take (k - hdr.length)) hHdr ?_ ?_
      · calc (tp.take (k - hdr.length)).count 10
            ≤ tp.count 10 := (List.take_sublist _ _).count_le 10
          _ ≤ 1 := htp10
      · calc (tp.take (k - hdr.length)).length ≤ tp.length := by
              rw [List.length_take]
              omega
          _ ≤ 7 := htplen
  · simp only [List.length_take, List.length_append] at hk ⊢
    omega

theorem headerLoop_fire_crlf (f : Nat) (acc : List Nat) (b : Nat) (t : List Nat) (cs : Chunks)
    (h : hasSub crlf2 (acc ++ [b]) = true) :
    headerLoop (f + 1) acc ((b :: t) :: cs) = normalFinish (acc ++ [b]) (ccons t cs) := by
  conv_lhs => rw [headerLoop]
  rw [readRaw_one_cons]
  simp only [List.isEmpty_cons, Bool.false_eq_true, if_false]
  rw [h]
  simp

theorem headerLoop_fire_lf (f : Nat) (acc : List Nat) (b : Nat) (t : List Nat) (cs : Chunks)
    (hc : hasSub crlf2 (acc ++ [b]) = false)
    (h : hasSub lf2 (acc ++ [b]) = true) :
    headerLoop (f + 1) acc ((b :: t) :: cs) = normalFinish (acc ++ [b]) (ccons t cs) := by
  conv_lhs => rw [headerLoop]
  rw [readRaw_one_cons]
  simp only [List.isEmpty_cons, Bool.false_eq_true, if_false]
  rw [hc, h]
  simp

theorem headerLoop_fire_esc (f : Nat) (acc : List Nat) (b : Nat) (t : List Nat) (cs : Chunks)
    (hc : hasSub crlf2 (acc ++ [b]) = false)
    (hl : hasSub lf2 (acc ++ [b]) = false)
    (h : hasSub escLit (acc ++ [b]) = true) :
    headerLoop (f + 1) acc ((b :: t) :: cs) = escapedFinish (acc ++ [b]) (ccons t cs) := by
  conv_lhs => rw [headerLoop]
  rw [readRaw_one_cons]
  simp only [List.isEmpty_cons, Bool.false_eq_true, if_false]
  rw [hc, hl, h]
  simp

theorem findSub_escLit (hdr : List Nat) (h92 : 92 ∉ hdr) :
    findSub escLit (hdr ++ escLit) = some hdr.length := by
  induction hdr with
  | nil => rfl
  | cons h t ih =>
      have hh : h ≠ 92 := fun he => h92 (he ▸ List.mem_cons_self h t)
      have ht : 92 ∉ t := fun hm => h92 (List.mem_cons_of_mem h hm)
      have hpre : escLit.isPrefixOf (h :: (t ++ escLit)) = false := by
        simp only [escLit, List.isPrefixOf]
        simp [hh, Ne.symm hh]
      calc findSub escLit ((h :: t) ++ escLit)
          = (findSub escLit (t ++ escLit)).map (· + 1) := by
            simp only [List.cons_append, findSub, List.append_eq]
            rw [hpre]
            simp
        _ = some (t.length + 1) := by rw [ih ht]; rfl
        _ = some ((h :: t).length) := by simp

theorem normalFinish_exact (hd body tail : List Nat) (n : Nat)
    (hText btext : List Char)
    (hCL : findContentLength hd = some n) (hLen : body.length = n)
    (hHdrDec : utf8Decode hd = some hText) (hBody : utf8Decode body = some btext) :
    normalFinish hd (ccons (body ++ tail) []) = .ok hText btext (ccons tail []) := by
  simp only [normalFinish, hCL]
  rw [readRaw_exact n body tail hLen]
  simp only [hLen]
  rw [if_neg (by omega)]
  rw [hHdrDec, hBody]

theorem escapedFinish_exact (hdr body tail : List Nat) (n : Nat)
    (hText btext : List Char)
    (h92 : 92 ∉ hdr)
    (hCL : findContentLength (hdr ++ escLit) = some n)
    (hLen : body.length = n)
    (hHdrDec : utf8Decode (hdr ++ escLit) = some hText)
    (hBody : utf8Decode body = some btext) :
    escapedFinish (hdr ++ escLit) (ccons (body ++ tail) []) =
      .ok hText btext (ccons tail []) := by
  have hfind := findSub_escLit hdr h92
  have hlen8 : (hdr ++ escLit).length = hdr.length + 8 := by simp [escLit]
  have hdrop : (hdr ++ escLit).drop (hdr.length + 8) = [] :=
    List.drop_of_length_le (by rw [hlen8])
  have htake : (hdr ++ escLit).take (hdr.length + 8) = hdr ++ escLit :=
    List.take_of_length_le (by rw [hlen8])
  simp only [escapedFinish, hfind, Option.getD_some, hCL, hdrop, htake]
  simp only [List.length_nil, List.nil_append]
  by_cases hn : 0 < n
  · rw [if_pos hn]
    rw [Nat.sub_zero, readRaw_exact n body tail hLen]
    rw [hHdrDec, hBody]
  · have hn0 : n = 0 := by omega
    subst hn0
    rw [if_neg hn]
    have hb : body = [] := List.eq_nil_of_length_eq_zero hLen
    subst hb
    rw [hHdrDec]
    rw [hBody]
    simp

theorem frame_ok (hdr term body tail : List Nat) (n : Nat) (hText btext : List Char)
    (hHdr : ∀ b ∈ hdr, b ≠ 13 ∧ b ≠ 10 ∧ b ≠ 92)
    (hTerm : term = crlf2 ∨ term = lf2 ∨ term = escLit)
    (hCap : hdr.length + 8 ≤ 4096)
    (hCL : findContentLength (hdr ++ term) = some n)
    (hLen : body.length = n)
    (hHdrDec : utf8Decode (hdr ++ term) = some hText)
    (hBody : utf8Decode body = some btext) :
    readHeaderAndContent [hdr ++ term ++ body ++ tail] =
      .ok hText btext (ccons tail []) := by
  have h92 : 92 ∉ hdr := fun hm => (hHdr 92 hm).2.2 rfl
  rcases hTerm with hT | hT | hT <;> subst hT
  · -- CR LF CR LF
    have hchunk : hdr ++ crlf2 ++ body ++ tail =
        (hdr ++ [13, 10, 13]) ++ (10 :: (body ++ tail)) := by
      simp [crlf2]
    rw [readHeaderAndContent, hchunk]
    have hcc : (((hdr ++ [13, 10, 13]) ++ (10 :: (body ++ tail))) :: [] : Chunks) =
        ccons ((hdr ++ [13, 10, 13]) ++ (10 :: (body ++ tail))) [] := by
      simp [ccons]
    rw [hcc]
    rw [headerLoop_advance (hdr ++ [13, 10, 13]) [] (10 :: (body ++ tail)) []
      (totalLen (ccons ((hdr ++ [13, 10, 13]) ++ (10 :: (body ++ tail))) []) + 1)
      (by simp [totalLen, ccons]; try omega)
      (scan_safe hdr [13, 10, 13] hHdr hCap (by decide) (by decide))]
    have hfuel : totalLen (ccons ((hdr ++ [13, 10, 13]) ++ (10 :: (body ++ tail))) []) + 1 -
        (hdr ++ [13, 10, 13]).length = (body.length + tail.length + 1) + 1 := by
      simp [totalLen, ccons]
      try omega
    rw [hfuel]
    simp only [List.nil_append]
    have hq : ccons (10 :: (body ++ tail)) [] = (10 :: (body ++ tail)) :: [] := rfl
    rw [hq]
    have hfix : (hdr ++ [13, 10, 13]) ++ [10] = hdr ++ crlf2 := by simp [crlf2]
    rw [headerLoop_fire_crlf (body.length + tail.length + 1) (hdr ++ [13, 10, 13]) 10
      (body ++ tail) [] (by rw [hfix]; exact (hasSub_iff _ _).mpr ⟨hdr, [], by simp⟩)]
    rw [hfix]
    exact normalFinish_exact (hdr ++ crlf2) body tail n hText btext hCL hLen hHdrDec hBody
  · -- LF LF
    have hchunk : hdr ++ lf2 ++ body ++ tail =
        (hdr ++ [10]) ++ (10 :: (body ++ tail)) := by
      simp [lf2]
    rw [readHeaderAndContent, hchunk]
    have hcc : (((hdr ++ [10]) ++ (10 :: (body ++ tail))) :: [] : Chunks) =
        ccons ((hdr ++ [10]) ++ (10 :: (body ++ tail))) [] := by
      simp [ccons]
    rw [hcc]
    rw [headerLoop_advance (hdr ++ [10]) [] (10 :: (body ++ tail)) []
      (totalLen (ccons ((hdr ++ [10]) ++ (10 :: (body ++ tail))) []) + 1)
      (by simp [totalLen, ccons]; try omega)
      (scan_safe hdr [10] hHdr hCap (by decide) (by decide))]
    have hfuel : totalLen (ccons ((hdr ++ [10]) ++ (10 :: (body ++ tail))) []) + 1 -
        (hdr ++ [10]).length = (body.length + tail.length + 1) + 1 := by
      simp [totalLen, ccons]
      try omega
    rw [hfuel]
    simp only [List.nil_append]
    have hq : ccons (10 :: (body ++ tail)) [] = (10 :: (body ++ tail)) :: [] := rfl
    rw [hq]
    have hfix : (hdr ++ [10]) ++ [10] = hdr ++ lf2 := by simp [lf2]
    have hc13 : (hdr ++ lf2).count 13 = 0 := by
      rw [List.count_append, count_eq_zero_of_forall (fun b hb => (hHdr b hb).1)]
      decide
    rw [headerLoop_fire_lf (body.length + tail.length + 1) (hdr ++ [10]) 10
      (body ++ tail) []
      (by rw [hfix]; exact hasSub_false_of_count _ _ 13 (by rw [hc13]; decide))
      (by rw [hfix]; exact (hasSub_iff _ _).mpr ⟨hdr, [], by simp⟩)]
    rw [hfix]
    exact normalFinish_exact (hdr ++ lf2) body tail n hText btext hCL hLen hHdrDec hBody
  · -- escaped literal
    have hchunk : hdr ++ escLit ++ body ++ tail =
        (hdr ++ [92, 114, 92, 110, 92, 114, 92]) ++ (110 :: (body ++ tail)) := by
      simp [escLit]
    rw [readHeaderAndContent, hchunk]
    have hcc : (((hdr ++ [92, 114, 92, 110, 92, 114, 92]) ++ (110 :: (body ++ tail))) :: [] : Chunks) =
        ccons ((hdr ++ [92, 114, 92, 110, 92, 114, 92]) ++ (110 :: (body ++ tail))) [] := by
      simp [ccons]
    rw [hcc]
    rw [headerLoop_advance (hdr ++ [92, 114, 92, 110, 92, 114, 92]) []
      (110 :: (body ++ tail)) []
      (totalLen (ccons ((hdr ++ [92, 114, 92, 110, 92, 114, 92]) ++ (110 :: (body ++ tail))) []) + 1)
      (by simp [totalLen, ccons]; try omega)
      (scan_safe hdr [92, 114, 92, 110, 92, 114, 92] hHdr hCap (by decide) (by decide))]
    have hfuel : totalLen (ccons ((hdr ++ [92, 114, 92, 110, 92, 114, 92]) ++ (110 :: (body ++ tail))) []) + 1 -
        (hdr ++ [92, 114, 92, 110, 92, 114, 92]).length = (body.length + tail.length + 1) + 1 := by
      simp [totalLen, ccons]
      try omega
    rw [hfuel]
    simp only [List.nil_append]
    have hq : ccons (110 :: (body ++ tail)) [] = (110 :: (body ++ tail)) :: [] := rfl
    rw [hq]
    have hfix : (hdr ++ [92, 114, 92, 110, 92, 114, 92]) ++ [110] = hdr ++ escLit := by
      simp [escLit]
    have hc13 : (hdr ++ escLit).count 13 = 0 := by
      rw [List.count_append, count_eq_zero_of_forall (fun b hb => (hHdr b hb).1)]
      decide
    have hc10 : (hdr ++ escLit).count 10 = 0 := by
      rw [List.count_append, count_eq_zero_of_forall (fun b hb => (hHdr b hb).2.1)]
      decide
    rw [headerLoop_fire_esc (body.length + tail.length + 1)
      (hdr ++ [92, 114, 92, 110, 92, 114, 92]) 110 (body ++ tail) []
      (by rw [hfix]; exact hasSub_false_of_count _ _ 13 (by rw [hc13]; decide))
      (by rw [hfix]; exact hasSub_false_of_count _ _ 10 (by rw [hc10]; decide))
      (by rw [hfix]; exact (hasSub_iff _ _).mpr ⟨hdr, [], by simp⟩)]
    rw [hfix]
    exact escapedFinish_exact hdr body tail n hText btext h92 hCL hLen hHdrDec hBody

theorem embReadExact_ok : ∀ (fuel rem : Nat) (acc st : List Char),
    rem ≤ st.length → rem < fuel →
    embReadExact fuel rem acc st = some (acc ++ st.take rem, st.drop rem) := by
  intro fuel
  induction fuel with
  | zero => intro rem acc st _ h; omega
  | succ f ih =>
      intro rem acc st hle hlt
      cases rem with
      | zero => simp [embReadExact]
      | succ r =>
          have hm1 : 1 ≤ min 1024 (r + 1) := by omega
          have hmle : min 1024 (r + 1) ≤ r + 1 := Nat.min_le_right _ _
          have hchunklen : (st.take (min 1024 (r + 1))).length = min 1024 (r + 1) := by
            rw [List.length_take]
            omega
          have hne : (st.take (min 1024 (r + 1))).isEmpty = false := by
            rw [List.isEmpty_eq_false]
            intro h0
            rw [h0] at hchunklen
            simp at hchunklen
            omega
          simp only [embReadExact, textRead, hne, Bool.false_eq_true, if_false]
          rw [hchunklen]
          rw [ih (r + 1 - min 1024 (r + 1)) (acc ++ st.take (min 1024 (r + 1)))
            (st.drop (min 1024 (r + 1)))
            (by rw [List.length_drop]; omega)
            (by omega)]
          have hm : min 1024 (r + 1) + (r + 1 - min 1024 (r + 1)) = r + 1 := by omega
          have e1 : st.take (min 1024 (r + 1)) ++
              (st.drop (min 1024 (r + 1))).take (r + 1 - min 1024 (r + 1)) =
              st.take (r + 1) := by
            rw [List.take_drop, hm]
            rw [show st.take (min 1024 (r + 1)) = (st.take (r + 1)).take (min 1024 (r + 1))
              from by rw [List.take_take]; congr 1; omega]
            exact List.take_append_drop _ _
          have e2 : (st.drop (min 1024 (r + 1))).drop (r + 1 - min 1024 (r + 1)) =
              st.drop (r + 1) := by
            rw [List.drop_drop, hm]
          rw [List.append_assoc, e1, e2]

theorem embReadExact_eof : ∀ (fuel rem : Nat) (acc st : List Char),
    st.length < rem → st.length + 1 ≤ fuel →
    embReadExact fuel rem acc st = none := by
  intro fuel
  induction fuel with
  | zero => intro rem acc st _ h; omega
  | succ f ih =>
      intro rem acc st hlt hfe
      cases rem with
      | zero => omega
      | succ r =>
          cases st with
          | nil => simp [embReadExact, textRead]
          | cons x xs =>
              have hm1 : 1 ≤ min 1024 (r + 1) := by omega
              have hne : ((x :: xs).take (min 1024 (r + 1))).isEmpty = false := by
                rw [List.isEmpty_eq_false]
                cases hmm : min 1024 (r + 1) with
                | zero => omega
                | succ k => simp
              simp only [embReadExact, textRead, hne, Bool.false_eq_true, if_false]
              apply ih
              · simp only [List.length_drop, List.length_take, List.length_cons,
                  inf_eq_min] at hlt hfe ⊢
                omega
              · simp only [List.length_drop, List.length_take, List.length_cons,
                  inf_eq_min] at hlt hfe ⊢
                omega

/-! ### Claim C6 -/

/-- C6: for every message framed with any of the three accepted terminator
styles — `CR LF CR LF`, `LF LF`, or the eight-byte escaped-literal text —
over a header free of raw line breaks and backslashes (every real
`Content-Length` header line is), the framer consumes exactly the header
and terminator, reconstructs the byte offset so that no body bytes are
dropped or duplicated, and returns precisely the declared `n` body bytes
decoded: the decoded body is exactly the decoding of the original body,
and the bytes after the body stay in the stream untouched. -/
theorem claim_c6_terminator_styles (hdr term body tail : List Nat) (n : Nat)
    (hText btext : List Char)
    (hHdr : ∀ b ∈ hdr, b ≠ 13 ∧ b ≠ 10 ∧ b ≠ 92)
    (hTerm : term = crlf2 ∨ term = lf2 ∨ term = escLit)
    (hCap : hdr.length + 8 ≤ 4096)
    (hCL : findContentLength (hdr ++ term) = some n)
    (hLen : body.length = n)
    (hHdrDec : utf8Decode (hdr ++ term) = some hText)
    (hBody : utf8Decode body = some btext) :
    readHeaderAndContent [hdr ++ term ++ body ++ tail] =
      .ok hText btext (ccons tail []) :=
  frame_ok hdr term body tail n hText btext hHdr hTerm hCap hCL hLen hHdrDec hBody

/-- Witness for `claim_c6_terminator_styles` at the header
`Content-Length: 5` and body `hello`, once per terminator style. -/
theorem claim_c6_witness :
    readHeaderAndContent [asciiB "Content-Length: 5" ++ crlf2 ++ asciiB "hello" ++ []] =
      .ok (charsOf "Content-Length: 5\r\n\r\n") (charsOf "hello") (ccons [] [])
    ∧ readHeaderAndContent [asciiB "Content-Length: 5" ++ lf2 ++ asciiB "hello" ++ []] =
      .ok (charsOf "Content-Length: 5\n\n") (charsOf "hello") (ccons [] [])
    ∧ readHeaderAndContent [asciiB "Content-Length: 5" ++ escLit ++ asciiB "hello" ++ []] =
      .ok (charsOf "Content-Length: 5\\r\\n\\r\\n") (charsOf "hello") (ccons [] []) :=
  ⟨claim_c6_terminator_styles (asciiB "Content-Length: 5") crlf2 (asciiB "hello") [] 5
     (charsOf "Content-Length: 5\r\n\r\n") (charsOf "hello")
     (by decide) (Or.inl rfl) (by decide) rfl rfl rfl rfl,
   claim_c6_terminator_styles (asciiB "Content-Length: 5") lf2 (asciiB "hello") [] 5
     (charsOf "Content-Length: 5\n\n") (charsOf "hello")
     (by decide) (Or.inr (Or.inl rfl)) (by decide) rfl rfl rfl rfl,
   claim_c6_terminator_styles (asciiB "Content-Length: 5") escLit (asciiB "hello") [] 5
     (charsOf "Content-Length: 5\\r\\n\\r\\n") (charsOf "hello")
     (by decide) (Or.inr (Or.inr rfl)) (by decide) rfl rfl rfl rfl⟩

/-! ### Claim C4 -/

/-- C4 counterexample: the claim says that however the body bytes are
split across physical read-chunk boundaries, the base framer reads
exactly `Content-Length` bytes, resuming partial reads until satisfied,
failing only at end-of-stream.  With the ten-byte body split after five
bytes, the single `raw_stdin.read(10)` returns only the first chunk, the
length check fails, and the framer gives up — while five body bytes are
still pending in the stream. -/
theorem claim_c4_counterexample :
    readHeaderAndContent [asciiB "Content-Length: 10\r\n\r\n01234", asciiB "56789"] =
      .fail [asciiB "56789"]
    ∧ totalLen [asciiB "56789"] = 5 :=
  ⟨rfl, rfl⟩

/-- C4 as amended: the embedding engine's body reader resumes partial
reads until satisfied — it returns exactly the first `n` characters of
the stream whenever they exist, and fails only when the stream ends
before `n` characters; the base engine issues a single raw read for the
body, so its reconstruction is guaranteed (exactly, dropping and
duplicating nothing) when the remaining message arrives within that one
read — here, when the frame sits in one chunk. -/
theorem claim_c4_amended :
    (∀ (n : Nat) (st : List Char), n ≤ st.length →
      embReadContent n st = some (st.take n, st.drop n))
    ∧ (∀ (n : Nat) (st : List Char), st.length < n →
      embReadContent n st = none)
    ∧ (∀ (hdr body tail : List Nat) (n : Nat) (hText btext : List Char),
      (∀ b ∈ hdr, b ≠ 13 ∧ b ≠ 10 ∧ b ≠ 92) →
      hdr.length + 8 ≤ 4096 →
      findContentLength (hdr ++ crlf2) = some n →
      body.length = n →
      utf8Decode (hdr ++ crlf2) = some hText →
      utf8Decode body = some btext →
      readHeaderAndContent [hdr ++ crlf2 ++ body ++ tail] =
        .ok hText btext (ccons tail [])) := by
  refine ⟨?_, ?_, ?_⟩
  · intro n st h
    have := embReadExact_ok (n + 1) n [] st h (Nat.lt_succ_self n)
    simpa [embReadContent] using this
  · intro n st h
    exact embReadExact_eof (n + 1) n [] st h (by omega)
  · intro hdr body tail n hText btext hHdr hCap hCL hLen hHdrDec hBody
    exact frame_ok hdr crlf2 body tail n hText btext hHdr (Or.inl rfl) hCap hCL
      hLen hHdrDec hBody

/-- Witness for `claim_c4_amended`: a resumed exact read, an end-of-stream
failure, and a single-chunk base frame, all concrete. -/
theorem claim_c4_amended_witness :
    embReadContent 3 (charsOf "abcdef") = some (charsOf "abc", charsOf "def")
    ∧ embReadContent 7 (charsOf "abc") = none
    ∧ readHeaderAndContent [asciiB "Content-Length: 2" ++ crlf2 ++ asciiB "ok" ++ []] =
        .ok (charsOf "Content-Length: 2\r\n\r\n") (charsOf "ok") (ccons [] []) :=
  ⟨claim_c4_amended.1 3 (charsOf "abcdef") (by decide),
   claim_c4_amended.2.1 7 (charsOf "abc") (by decide),
   claim_c4_amended.2.2 (asciiB "Content-Length: 2") (asciiB "ok") [] 2
     (charsOf "Content-Length: 2\r\n\r\n") (charsOf "ok")
     (by decide) (by decide) rfl rfl rfl rfl⟩
